import Mathlib

/-!
Verification development for the browser-interaction core
(`gui_agents/s2/core/browser_use.py`, in particular the injected
snapshot script `BUILD_DOM_TREE_JS` and the `BrowserUse` dispatcher).

The development shallowly embeds:
  * the snapshot builder `buildDomTree` (highlight-index assignment),
  * the serializer `clickable_elements_to_string` with its helper
    `get_all_text_till_next_clickable_element`,
  * the locator builder `getXPathTree`,
  * the interactivity classifier `isInteractiveElement`,
  * the overlay removal `remove_highlight`,
  * the command dispatcher `BrowserUse.execute`,
and proves or refutes the specification claims C1-C10 about them.
-/

namespace BrowserUseModel

/-!
Raw DOM nodes: what the injected script walks.  The Boolean flags record
the outcomes of the browser-state predicates (`isTextNodeVisible`,
`isElementVisible`, `isInteractiveElement`, `isTopElement`), which read
live layout and event-listener state and are therefore modelled as
per-node data.  The `children` forest is the child list in the order the
script traverses it (shadow-root children first, then regular children,
or the embedded frame document's children for an accessible frame; an
inaccessible frame contributes no children).
-/

mutual
inductive RawNode where
  | text (content : String) (visible : Bool)
  | elem (tag : String) (visible interactive top : Bool) (children : RawForest)
inductive RawForest where
  | nil
  | cons (head : RawNode) (tail : RawForest)
end

/-!
Snapshot nodes: mirrors the `nodeData` objects built by the script.
Elements carry the lowercased tag, the classifier flags, the optional
`highlightIndex`, and the (null-filtered) children; text nodes carry the
trimmed content.  The `attributes` and `xpath` fields of `nodeData` are
not read by the properties verified here and are omitted.
-/

mutual
inductive BNode where
  | text (content : String)
  | elem (tag : String) (isVisible isInteractive isTopElement : Bool)
      (highlightIndex : Option Nat) (children : BForest)
inductive BForest where
  | nil
  | cons (head : BNode) (tail : BForest)
end

/-- The `leafElementDenyList` of `isElementAccepted`. -/
def leafElementDenyList : List String := ["svg", "script", "style", "link", "meta"]

/-- `toLowerCase()` on a string, implemented by structural recursion
over the character list (so that concrete inputs evaluate). -/
def toLowerStr (s : String) : String :=
  ⟨s.data.map Char.toLower⟩

/-- `isElementAccepted(element)`: the element is dropped iff its
lowercased tag is in the deny list. -/
def isElementAccepted (tag : String) : Bool :=
  !(leafElementDenyList.contains (toLowerStr tag))

/-!
`buildDomTree(node)` with the mutable counter `highlightIndex` threaded
explicitly: returns the produced node (or `none` when the node is
rejected) and the new counter value.  A text node is kept iff its
trimmed content is nonempty and it is visible; an element is rejected by
the deny list; a kept element is assigned the next index iff
`isInteractive && isVisible && isTop` (the counter is incremented only
on assignment, before the children are built in traversal order).
-/

mutual
def buildDomTree : RawNode → Nat → Option BNode × Nat
  | .text s vis, k =>
      if s.trim != "" && vis then (some (.text s.trim), k) else (none, k)
  | .elem tag vis inter top cs, k =>
      if !(isElementAccepted tag) then (none, k)
      else if inter && vis && top then
        let res := buildForest cs (k + 1)
        (some (.elem (toLowerStr tag) vis inter top (some k) res.1), res.2)
      else
        let res := buildForest cs k
        (some (.elem (toLowerStr tag) vis inter top none res.1), res.2)
def buildForest : RawForest → Nat → BForest × Nat
  | .nil, k => (.nil, k)
  | .cons c rest, k =>
      let rc := buildDomTree c k
      let rr := buildForest rest rc.2
      (match rc.1 with
       | some b => .cons b rr.1
       | none => rr.1, rr.2)
end

/-!
`assignedIndices`: the highlight indices present in a snapshot node,
listed in pre-order (document) traversal order.
-/

mutual
def assignedIndices : BNode → List Nat
  | .text _ => []
  | .elem _ _ _ _ hx cs =>
      (match hx with
       | some i => [i]
       | none => []) ++ assignedIndicesF cs
def assignedIndicesF : BForest → List Nat
  | .nil => []
  | .cons c rest => assignedIndices c ++ assignedIndicesF rest
end

def assignedOpt : Option BNode → List Nat
  | some t => assignedIndices t
  | none => []

/-!
`flagsConsistent`: every element of the snapshot has a highlight index
iff its stored classifier flags satisfy
`isInteractive && isVisible && isTopElement`.
-/

mutual
def flagsConsistent : BNode → Bool
  | .text _ => true
  | .elem _ v i top hx cs =>
      (hx.isSome == (i && v && top)) && flagsConsistentF cs
def flagsConsistentF : BForest → Bool
  | .nil => true
  | .cons c rest => flagsConsistent c && flagsConsistentF rest
end

def flagsConsistentOpt : Option BNode → Bool
  | some t => flagsConsistent t
  | none => true

/-! Helper lemmas about `List.range'` (step 1). -/

theorem range1_cons (s n : Nat) :
    List.range' s (n + 1) = s :: List.range' (s + 1) n := rfl

theorem range1_append (s m n : Nat) :
    List.range' s m ++ List.range' (s + m) n = List.range' s (m + n) := by
  induction m generalizing s with
  | zero => simp
  | succ m ih =>
      have h := ih (s + 1)
      simp only [range1_cons, List.cons_append, Nat.succ_add]
      rw [show s + 1 + m = s + (m + 1) by omega] at h
      rw [h]

theorem mem_range1 (x s n : Nat) (h : x ∈ List.range' s n) :
    s ≤ x ∧ x < s + n := by
  induction n generalizing s with
  | zero => simp at h
  | succ n ih =>
      rw [range1_cons] at h
      rcases List.mem_cons.mp h with h | h
      · omega
      · have := ih (s + 1) h
        omega

theorem pairwise_lt_range1 (s n : Nat) :
    List.Pairwise (· < ·) (List.range' s n) := by
  induction n generalizing s with
  | zero => simp
  | succ n ih =>
      rw [range1_cons]
      refine List.pairwise_cons.mpr ⟨?_, ih (s + 1)⟩
      intro x hx
      have := mem_range1 x (s + 1) n hx
      omega

/-! C1: index assignment is dense and pre-order increasing. -/

mutual
theorem buildDomTree_assigned (r : RawNode) (k : Nat) :
    k ≤ (buildDomTree r k).2
      ∧ assignedOpt (buildDomTree r k).1
        = List.range' k ((buildDomTree r k).2 - k) := by
  cases r with
  | text s vis =>
      by_cases h : (s.trim != "" && vis) = true
      · have hb : buildDomTree (.text s vis) k = (some (.text s.trim), k) := by
          simp only [buildDomTree, if_pos h]
        rw [hb]; simp [assignedOpt, assignedIndices]
      · have hb : buildDomTree (.text s vis) k = (none, k) := by
          simp only [buildDomTree, if_neg h]
        rw [hb]; simp [assignedOpt]
  | elem tag vis inter top cs =>
      by_cases hacc : (!(isElementAccepted tag)) = true
      · have hb : buildDomTree (.elem tag vis inter top cs) k = (none, k) := by
          simp only [buildDomTree, if_pos hacc]
        rw [hb]; simp [assignedOpt]
      · by_cases hq : (inter && vis && top) = true
        · rcases buildForest_assigned cs (k + 1) with ⟨h1, h2⟩
          have hb : buildDomTree (.elem tag vis inter top cs) k
              = (some (.elem (toLowerStr tag) vis inter top (some k)
                    (buildForest cs (k + 1)).1),
                 (buildForest cs (k + 1)).2) := by
            simp only [buildDomTree, if_neg hacc, if_pos hq]
          rw [hb]
          refine ⟨by omega, ?_⟩
          simp only [assignedOpt, assignedIndices, h2]
          have e : (buildForest cs (k + 1)).2 - k
              = 1 + ((buildForest cs (k + 1)).2 - (k + 1)) := by omega
          rw [e, ← range1_append k 1 ((buildForest cs (k + 1)).2 - (k + 1))]
          rfl
        · rcases buildForest_assigned cs k with ⟨h1, h2⟩
          have hb : buildDomTree (.elem tag vis inter top cs) k
              = (some (.elem (toLowerStr tag) vis inter top none
                    (buildForest cs k).1),
                 (buildForest cs k).2) := by
            simp only [buildDomTree, if_neg hacc, if_neg hq]
          rw [hb]
          exact ⟨h1, by simpa [assignedOpt, assignedIndices] using h2⟩
theorem buildForest_assigned (f : RawForest) (k : Nat) :
    k ≤ (buildForest f k).2
      ∧ assignedIndicesF (buildForest f k).1
        = List.range' k ((buildForest f k).2 - k) := by
  cases f with
  | nil => simp [buildForest, assignedIndicesF]
  | cons c rest =>
      rcases buildDomTree_assigned c k with ⟨hc1, hc2⟩
      rcases buildForest_assigned rest (buildDomTree c k).2 with ⟨hr1, hr2⟩
      constructor
      · simp only [buildForest]
        omega
      · simp only [buildForest]
        have hsplit : assignedIndicesF
            (match (buildDomTree c k).1 with
             | some b => BForest.cons b (buildForest rest (buildDomTree c k).2).1
             | none => (buildForest rest (buildDomTree c k).2).1)
            = assignedOpt (buildDomTree c k).1
              ++ assignedIndicesF (buildForest rest (buildDomTree c k).2).1 := by
          cases h : (buildDomTree c k).1 with
          | some b => simp [assignedIndicesF, assignedOpt]
          | none => simp [assignedIndicesF, assignedOpt]
        rw [hsplit, hc2, hr2]
        have e1 : (buildDomTree c k).2 = k + ((buildDomTree c k).2 - k) := by omega
        rw [show List.range' (buildDomTree c k).2
              ((buildForest rest (buildDomTree c k).2).2 - (buildDomTree c k).2)
            = List.range' (k + ((buildDomTree c k).2 - k))
              ((buildForest rest (buildDomTree c k).2).2 - (buildDomTree c k).2)
          by rw [← e1]]
        rw [range1_append]
        congr 1
        omega
end

mutual
theorem buildDomTree_flags (r : RawNode) (k : Nat) :
    flagsConsistentOpt (buildDomTree r k).1 = true := by
  cases r with
  | text s vis =>
      by_cases h : (s.trim != "" && vis) = true
      · have hb : buildDomTree (.text s vis) k = (some (.text s.trim), k) := by
          simp only [buildDomTree, if_pos h]
        rw [hb]; simp [flagsConsistentOpt, flagsConsistent]
      · have hb : buildDomTree (.text s vis) k = (none, k) := by
          simp only [buildDomTree, if_neg h]
        rw [hb]; simp [flagsConsistentOpt]
  | elem tag vis inter top cs =>
      by_cases hacc : (!(isElementAccepted tag)) = true
      · have hb : buildDomTree (.elem tag vis inter top cs) k = (none, k) := by
          simp only [buildDomTree, if_pos hacc]
        rw [hb]; simp [flagsConsistentOpt]
      · by_cases hq : (inter && vis && top) = true
        · have hf := buildForest_flags cs (k + 1)
          have hb : buildDomTree (.elem tag vis inter top cs) k
              = (some (.elem (toLowerStr tag) vis inter top (some k)
                    (buildForest cs (k + 1)).1),
                 (buildForest cs (k + 1)).2) := by
            simp only [buildDomTree, if_neg hacc, if_pos hq]
          rw [hb]
          simp [flagsConsistentOpt, flagsConsistent, hf, hq]
        · have hf := buildForest_flags cs k
          have hb : buildDomTree (.elem tag vis inter top cs) k
              = (some (.elem (toLowerStr tag) vis inter top none
                    (buildForest cs k).1),
                 (buildForest cs k).2) := by
            simp only [buildDomTree, if_neg hacc, if_neg hq]
          rw [hb]
          simp only [Bool.not_eq_true] at hq
          simp [flagsConsistentOpt, flagsConsistent, hf, hq]
theorem buildForest_flags (f : RawForest) (k : Nat) :
    flagsConsistentF (buildForest f k).1 = true := by
  cases f with
  | nil => simp [buildForest, flagsConsistentF]
  | cons c rest =>
      have hc := buildDomTree_flags c k
      have hr := buildForest_flags rest (buildDomTree c k).2
      simp only [buildForest]
      cases h : (buildDomTree c k).1 with
      | some b =>
          rw [h] at hc
          simp [flagsConsistentF, flagsConsistentOpt] at hc ⊢
          exact ⟨hc, hr⟩
      | none => simpa [flagsConsistentF] using hr
end

/-- C1: for every snapshot produced by the snapshot builder (a
`buildDomTree` run started with counter 0), the highlight indices, read
in pre-order depth-first traversal order, are exactly `0, 1, ..., n-1`
where `n` is the final counter value: they are unique, dense starting at
0, and strictly increasing in pre-order (so `index(n) < index(m)`
whenever `n` precedes `m`); moreover an element of the snapshot carries
an index iff its `isInteractive && isVisible && isTopElement` flags are
all true. -/
theorem highlightIndex_dense_preorder (r : RawNode) :
    assignedOpt (buildDomTree r 0).1 = List.range (buildDomTree r 0).2
      ∧ (assignedOpt (buildDomTree r 0).1).Nodup
      ∧ List.Pairwise (· < ·) (assignedOpt (buildDomTree r 0).1)
      ∧ flagsConsistentOpt (buildDomTree r 0).1 = true := by
  rcases buildDomTree_assigned r 0 with ⟨h1, h2⟩
  have hr : assignedOpt (buildDomTree r 0).1
      = List.range' 0 (buildDomTree r 0).2 := by
    simpa using h2
  have hpw : List.Pairwise (· < ·) (assignedOpt (buildDomTree r 0).1) := by
    rw [hr]; exact pairwise_lt_range1 0 _
  refine ⟨?_, ?_, hpw, buildDomTree_flags r 0⟩
  · rw [hr, List.range_eq_range']
  · exact hpw.nodup


/-!
Serializer: `clickable_elements_to_string` of the injected script.
A line is either `[index]:<tag ...>text</tag>` for a node carrying a
highlight index, or a bare `[]:text` line for a text node with no
indexed ancestor.  For the attribution properties we keep the list of
collected text parts of each line (the code joins them with newlines,
trims, and collapses newline runs to single spaces before printing;
that rendering does not move text between lines).  The attribute string
of an indexed line is not modelled (attributes are omitted from
`BNode`).
-/

inductive Line where
  | indexed (idx : Nat) (tag : String) (parts : List String)
  | bare (s : String)

/-!
`collect_text` inside `get_all_text_till_next_clickable_element`: walk
the subtree, push the text of a text node whose content is truthy, stop
at (and exclude) any element other than the root that carries a
highlight index.
-/

mutual
def collectChild : BNode → List String
  | .text s => if s == "" then [] else [s]
  | .elem _ _ _ _ hx cs => if hx.isSome then [] else collectTextParts cs
def collectTextParts : BForest → List String
  | .nil => []
  | .cons c rest => collectChild c ++ collectTextParts rest
end

/-- `get_all_text_till_next_clickable_element(element_node)`: the root
itself never stops the walk (the `node != element_node` guard). -/
def get_all_text_till_next_clickable_element : BNode → List String
  | .text s => if s == "" then [] else [s]
  | .elem _ _ _ _ _ cs => collectTextParts cs

/-!
`process_node(node, depth)`: for an element carrying a highlight index,
emit its line and recurse with the fact recorded that an indexed
ancestor now exists (the Boolean argument models the
`has_parent_with_highlight_index` parent-chain walk); for a text node,
emit a bare line iff no ancestor carries a highlight index.
-/

mutual
def processNode (b : Bool) : BNode → List Line
  | .text s => if b then [] else [Line.bare s]
  | .elem tag v i top hx cs =>
      match hx with
      | some ix =>
          Line.indexed ix tag
              (get_all_text_till_next_clickable_element
                (.elem tag v i top (some ix) cs))
            :: processForest true cs
      | none => processForest b cs
def processForest (b : Bool) : BForest → List Line
  | .nil => []
  | .cons c rest => processNode b c ++ processForest b rest
end

/-! `allTexts`: all text-run contents of a snapshot node, in document order. -/

mutual
def allTexts : BNode → List String
  | .text s => [s]
  | .elem _ _ _ _ _ cs => allTextsF cs
def allTextsF : BForest → List String
  | .nil => []
  | .cons c rest => allTexts c ++ allTextsF rest
end

/-!
`nonEmptyTexts`: wellformedness of snapshot trees as `buildDomTree`
produces them: every text node has nonempty content.
-/

mutual
def nonEmptyTexts : BNode → Bool
  | .text s => s != ""
  | .elem _ _ _ _ _ cs => nonEmptyTextsF cs
def nonEmptyTextsF : BForest → Bool
  | .nil => true
  | .cons c rest => nonEmptyTexts c && nonEmptyTextsF rest
end

def lineParts : Line → List String
  | .indexed _ _ ps => ps
  | .bare s => [s]

def linesParts (ls : List Line) : List String := (ls.map lineParts).flatten

theorem linesParts_nil : linesParts [] = [] := rfl

theorem linesParts_cons (l : Line) (ls : List Line) :
    linesParts (l :: ls) = lineParts l ++ linesParts ls := by
  simp [linesParts]

theorem linesParts_append (xs ys : List Line) :
    linesParts (xs ++ ys) = linesParts xs ++ linesParts ys := by
  simp [linesParts]

theorem processForest_cons (b : Bool) (c : BNode) (rest : BForest) :
    processForest b (.cons c rest) = processNode b c ++ processForest b rest := rfl

theorem collectTextParts_cons (c : BNode) (rest : BForest) :
    collectTextParts (.cons c rest) = collectChild c ++ collectTextParts rest := rfl

theorem allTextsF_cons (c : BNode) (rest : BForest) :
    allTextsF (.cons c rest) = allTexts c ++ allTextsF rest := rfl

theorem perm_four (a b c d : List String) :
    ((a ++ b) ++ (c ++ d)).Perm ((a ++ c) ++ (b ++ d)) := by
  rw [List.perm_iff_count]
  intro x
  simp only [List.count_append]
  omega

/-!
The conservation lemma behind C3: processing a node with ancestor flag
`b` emits, across all its lines, exactly the texts of the subtree that
are not also collected by an indexed ancestor, and when `b = true` the
part the node contributes to that ancestor is `collectChild`.
-/

mutual
theorem processNode_perm (n : BNode) (b : Bool) (h : nonEmptyTexts n = true) :
    (linesParts (processNode b n)
      ++ (if b then collectChild n else [])).Perm (allTexts n) := by
  cases n with
  | text s =>
      have hs : (s == "") = false := by
        simp only [nonEmptyTexts, bne_iff_ne, ne_eq] at h
        simpa using h
      cases b with
      | false => simp [processNode, linesParts, lineParts, allTexts]
      | true => simp [processNode, linesParts, collectChild, hs, allTexts]
  | elem tag v i top hx cs =>
      have hcs : nonEmptyTextsF cs = true := by
        simpa [nonEmptyTexts] using h
      cases hx with
      | some ix =>
          have hf := processForest_perm cs true hcs
          simp only [if_pos] at hf
          have e : processNode b (.elem tag v i top (some ix) cs)
              = Line.indexed ix tag (collectTextParts cs)
                  :: processForest true cs := rfl
          rw [e, linesParts_cons]
          have hif : (if b then collectChild (.elem tag v i top (some ix) cs)
              else []) = [] := by
            cases b <;> simp [collectChild]
          rw [hif, List.append_nil]
          simp only [lineParts]
          show (collectTextParts cs
              ++ linesParts (processForest true cs)).Perm
            (allTexts (.elem tag v i top (some ix) cs))
          have hcomm : (collectTextParts cs
              ++ linesParts (processForest true cs)).Perm
              (linesParts (processForest true cs) ++ collectTextParts cs) :=
            List.perm_append_comm
          exact hcomm.trans hf
      | none =>
          have hf := processForest_perm cs b hcs
          have e : processNode b (.elem tag v i top none cs)
              = processForest b cs := rfl
          have ec : collectChild (.elem tag v i top none cs)
              = collectTextParts cs := rfl
          rw [e]
          show (linesParts (processForest b cs)
              ++ (if b then collectChild (.elem tag v i top none cs) else [])).Perm
            (allTextsF cs)
          rw [ec]
          exact hf
theorem processForest_perm (f : BForest) (b : Bool) (h : nonEmptyTextsF f = true) :
    (linesParts (processForest b f)
      ++ (if b then collectTextParts f else [])).Perm (allTextsF f) := by
  cases f with
  | nil =>
      cases b <;> simp [processForest, linesParts, collectTextParts, allTextsF]
  | cons c rest =>
      have hc : nonEmptyTexts c = true := by
        simp only [nonEmptyTextsF, Bool.and_eq_true] at h
        exact h.1
      have hr : nonEmptyTextsF rest = true := by
        simp only [nonEmptyTextsF, Bool.and_eq_true] at h
        exact h.2
      have hcp := processNode_perm c b hc
      have hrp := processForest_perm rest b hr
      rw [processForest_cons, linesParts_append, allTextsF_cons]
      cases b with
      | false =>
          simp at hcp hrp ⊢
          exact hcp.append hrp
      | true =>
          simp only [if_pos] at hcp hrp ⊢
          rw [collectTextParts_cons]
          exact (perm_four _ _ _ _).trans (hcp.append hrp)
end

/-!
Positions in a snapshot tree: a path of child indices.  These let the
attribution claim speak about individual text-node occurrences, their
ancestors, and the nearest indexed ancestor.
-/

def forestGet : BForest → Nat → Option BNode
  | .nil, _ => none
  | .cons c _, 0 => some c
  | .cons _ rest, n + 1 => forestGet rest n

def nodeAt : BNode → List Nat → Option BNode
  | n, [] => some n
  | .text _, _ :: _ => none
  | .elem _ _ _ _ _ cs, i :: p =>
      match forestGet cs i with
      | some c => nodeAt c p
      | none => none

def isIndexedB : BNode → Bool
  | .elem _ _ _ _ (some _) _ => true
  | _ => false

def isIndexedOptB : Option BNode → Bool
  | some n => isIndexedB n
  | none => false

/-- Whether some strict ancestor of the position (the root included)
carries a highlight index: the `has_parent_with_highlight_index`
parent-chain walk, expressed top-down. -/
def hasIndexedAbove : BNode → List Nat → Bool
  | _, [] => false
  | .text _, _ :: _ => false
  | .elem _ _ _ _ hx cs, j :: p =>
      hx.isSome ||
        (match forestGet cs j with
         | some c => hasIndexedAbove c p
         | none => false)

theorem nodeAt_nil (n : BNode) : nodeAt n [] = some n := by
  cases n <;> simp [nodeAt]

theorem nodeAt_cons_text (t : String) (j : Nat) (p : List Nat) :
    nodeAt (.text t) (j :: p) = none := by
  simp [nodeAt]

theorem nodeAt_cons_elem (tag : String) (v i top : Bool) (hx : Option Nat)
    (cs : BForest) (j : Nat) (p : List Nat) :
    nodeAt (.elem tag v i top hx cs) (j :: p)
      = (match forestGet cs j with
         | some c => nodeAt c p
         | none => none) := by
  simp [nodeAt]

theorem hasIndexedAbove_elem_cons (tag : String) (v i top : Bool)
    (hx : Option Nat) (cs : BForest) (j : Nat) (p : List Nat) :
    hasIndexedAbove (.elem tag v i top hx cs) (j :: p)
      = (hx.isSome ||
          (match forestGet cs j with
           | some c => hasIndexedAbove c p
           | none => false)) := by
  simp [hasIndexedAbove]

theorem mem_processForest_of_get (b : Bool) (l : Line) :
    ∀ (f : BForest) (i : Nat) (c : BNode), forestGet f i = some c →
      l ∈ processNode b c → l ∈ processForest b f
  | .nil, i, c, hget, _ => by simp [forestGet] at hget
  | .cons c' rest, 0, c, hget, hm => by
      simp only [forestGet, Option.some.injEq] at hget
      subst hget
      rw [processForest_cons]
      exact List.mem_append.mpr (.inl hm)
  | .cons c' rest, i + 1, c, hget, hm => by
      have hrec := mem_processForest_of_get b l rest i c
        (by simpa [forestGet] using hget) hm
      rw [processForest_cons]
      exact List.mem_append.mpr (.inr hrec)

theorem mem_collectTextParts_of_get (s : String) :
    ∀ (f : BForest) (i : Nat) (c : BNode), forestGet f i = some c →
      s ∈ collectChild c → s ∈ collectTextParts f
  | .nil, i, c, hget, _ => by simp [forestGet] at hget
  | .cons c' rest, 0, c, hget, hm => by
      simp only [forestGet, Option.some.injEq] at hget
      subst hget
      rw [collectTextParts_cons]
      exact List.mem_append.mpr (.inl hm)
  | .cons c' rest, i + 1, c, hget, hm => by
      have hrec := mem_collectTextParts_of_get s rest i c
        (by simpa [forestGet] using hget) hm
      rw [collectTextParts_cons]
      exact List.mem_append.mpr (.inr hrec)

/-- A text run with no indexed ancestor gets a bare line. -/
theorem bare_mem_of_unindexed :
    ∀ (p : List Nat) (n : BNode) (s : String),
      nodeAt n p = some (.text s) → hasIndexedAbove n p = false →
      Line.bare s ∈ processNode false n
  | [], n, s, hat, _ => by
      rw [nodeAt_nil] at hat
      have h := Option.some.inj hat
      subst h
      simp [processNode]
  | j :: p, .text t, s, hat, _ => by
      rw [nodeAt_cons_text] at hat
      cases hat
  | j :: p, .elem tag v i top hx cs, s, hat, hab => by
      rw [nodeAt_cons_elem] at hat
      rw [hasIndexedAbove_elem_cons] at hab
      cases hg : forestGet cs j with
      | none => rw [hg] at hat; cases hat
      | some c =>
          rw [hg] at hat hab
          have hsplit := Bool.or_eq_false_iff.mp hab
          have hxn : hx = none := by
            cases hx with
            | none => rfl
            | some ix => simp at hsplit
          subst hxn
          have hmem := bare_mem_of_unindexed p c s hat hsplit.2
          have e : processNode false (.elem tag v i top none cs)
              = processForest false cs := rfl
          rw [e]
          exact mem_processForest_of_get false _ cs j c hg hmem

/-- A text run below an element, with no intermediate indexed element in
between, is collected by the `collect_text` walk of that element. -/
theorem mem_collectChild_of_path :
    ∀ (p : List Nat) (c : BNode) (s : String),
      nodeAt c p = some (.text s) → s ≠ "" →
      (∀ k, k < p.length → isIndexedOptB (nodeAt c (p.take k)) = false) →
      s ∈ collectChild c
  | [], c, s, hat, hs, _ => by
      rw [nodeAt_nil] at hat
      have h := Option.some.inj hat
      subst h
      have hb : (s == "") = false := by simpa using hs
      simp [collectChild, hb]
  | j :: p, c, s, hat, hs, hk => by
      cases c with
      | text t => rw [nodeAt_cons_text] at hat; cases hat
      | elem tag v i top hx cs =>
          have h0 := hk 0 (by simp)
          simp only [List.take_zero, nodeAt_nil] at h0
          have hxn : hx = none := by
            cases hx with
            | none => rfl
            | some ix => simp [isIndexedOptB, isIndexedB] at h0
          subst hxn
          rw [nodeAt_cons_elem] at hat
          cases hg : forestGet cs j with
          | none => rw [hg] at hat; cases hat
          | some c' =>
              rw [hg] at hat
              have hk' : ∀ k, k < p.length →
                  isIndexedOptB (nodeAt c' (p.take k)) = false := by
                intro k hkl
                have h1 := hk (k + 1) (by simp; omega)
                rw [List.take_succ_cons, nodeAt_cons_elem, hg] at h1
                exact h1
              have hmem := mem_collectChild_of_path p c' s hat hs hk'
              have e : collectChild (.elem tag v i top none cs)
                  = collectTextParts cs := by simp [collectChild]
              rw [e]
              exact mem_collectTextParts_of_get s cs j c' hg hmem

/-- The statement of claim C3 for a snapshot tree `t`: (1) the text
parts of the emitted lines are a permutation of the text runs of the
tree (each run lands in exactly one line, none lost and none
duplicated); (2) a text run with no indexed ancestor is emitted as a
bare line; (3) the text collected into an indexed element's line
includes every text run below it whose path to it passes through no
further indexed element, i.e. whose nearest indexed ancestor it is. -/
def C3Statement (t : BNode) : Prop :=
  (linesParts (processNode false t)).Perm (allTexts t)
  ∧ (∀ p s, nodeAt t p = some (.text s) → hasIndexedAbove t p = false →
      Line.bare s ∈ processNode false t)
  ∧ (∀ tag v i top hx cs p s,
      nodeAt (BNode.elem tag v i top hx cs) p = some (.text s) →
      p ≠ [] → s ≠ "" →
      (∀ k, 0 < k → k < p.length →
        isIndexedOptB (nodeAt (BNode.elem tag v i top hx cs) (p.take k)) = false) →
      s ∈ get_all_text_till_next_clickable_element (BNode.elem tag v i top hx cs))

/-- C3: in the serialization of any snapshot tree whose text runs are
nonempty (as `buildDomTree` guarantees), every text run is attributed to
exactly one emitted line — the line of its nearest indexed ancestor when
one exists, and a bare line otherwise — and never to two lines. -/
theorem text_attribution (t : BNode) (h : nonEmptyTexts t = true) :
    C3Statement t := by
  refine ⟨?_, ?_, ?_⟩
  · have h0 := processNode_perm t false h
    simpa using h0
  · intro p s hat hab
    exact bare_mem_of_unindexed p t s hat hab
  · intro tag v i top hx cs p s hat hne hs hk
    cases p with
    | nil => exact absurd rfl hne
    | cons j p' =>
        rw [nodeAt_cons_elem] at hat
        cases hg : forestGet cs j with
        | none => rw [hg] at hat; cases hat
        | some c =>
            rw [hg] at hat
            have hk' : ∀ k, k < p'.length →
                isIndexedOptB (nodeAt c (p'.take k)) = false := by
              intro k hkl
              have h1 := hk (k + 1) (by omega) (by simp; omega)
              rw [List.take_succ_cons, nodeAt_cons_elem, hg] at h1
              exact h1
            have hmem := mem_collectChild_of_path p' c s hat hs hk'
            have e : get_all_text_till_next_clickable_element
                (BNode.elem tag v i top hx cs) = collectTextParts cs := by
              simp [get_all_text_till_next_clickable_element]
            rw [e]
            exact mem_collectTextParts_of_get s cs j c hg hmem

/-- A small concrete snapshot tree: a body holding a free text run and
an indexed link with inner text. -/
def c3Example : BNode :=
  .elem "body" true false false none
    (.cons (.text "hello")
      (.cons (.elem "a" true true true (some 0)
        (.cons (.text "link") .nil))
        .nil))

theorem text_attribution_witness :
    nonEmptyTexts c3Example = true ∧ C3Statement c3Example :=
  ⟨by simp [c3Example, nonEmptyTexts, nonEmptyTextsF],
   text_attribution c3Example
     (by simp [c3Example, nonEmptyTexts, nonEmptyTextsF])⟩

/-!
`getXPathTree(element, stopAtBoundary=true)`: walks from the element up
through its element ancestors.  A `Crumb` describes one step of that
walk: the node name of the current element, its preceding and following
siblings (the code only reads the preceding ones), and whether its
parent node is a shadow root or an iframe element (the boundary test
that breaks the walk before emitting this element's segment).  The
chain lists the element first, then its parent, and ends where the
parent chain stops being an element node.
-/

structure SiblingInfo where
  isElement : Bool
  nodeName : String

structure Crumb where
  nodeName : String
  prevSiblings : List SiblingInfo
  nextSiblings : List SiblingInfo
  parentIsBoundary : Bool

/-- Number of preceding element siblings sharing the node name (the
`previousSibling` counting loop). -/
def sameTagPrevCount (name : String) (sibs : List SiblingInfo) : Nat :=
  (sibs.filter (fun sb => sb.isElement && sb.nodeName == name)).length

/-- One segment: lowercased tag plus `[index+1]` iff at least one
preceding sibling shares the tag. -/
def xpathSegment (c : Crumb) : String :=
  let tagName := toLowerStr c.nodeName
  let index := sameTagPrevCount c.nodeName c.prevSiblings
  let xpathIndex := if index > 0 then "[" ++ toString (index + 1) ++ "]" else ""
  tagName ++ xpathIndex

def xpathSegsUp : List Crumb → List String
  | [] => []
  | c :: rest =>
      if c.parentIsBoundary then [] else xpathSegment c :: xpathSegsUp rest

/-- `getXPathTree`: segments are unshifted while walking up, so the
joined string lists the topmost ancestor first. -/
def getXPathTree (chain : List Crumb) : String :=
  String.intercalate "/" (xpathSegsUp chain).reverse

/-- Definition following the words of claim C5: the 1-based same-tag
sibling ordinal is appended whenever the element is not the sole
same-tag sibling among its siblings — also when it is the first of
several (which requires looking at the following siblings too). -/
def claimSegment (c : Crumb) : String :=
  let prevCount := sameTagPrevCount c.nodeName c.prevSiblings
  let nextCount := sameTagPrevCount c.nodeName c.nextSiblings
  if prevCount + nextCount > 0 then
    toLowerStr c.nodeName ++ ("[" ++ toString (prevCount + 1) ++ "]")
  else toLowerStr c.nodeName

def claimSegsUp : List Crumb → List String
  | [] => []
  | c :: rest =>
      if c.parentIsBoundary then [] else claimSegment c :: claimSegsUp rest

def claimXPath (chain : List Crumb) : String :=
  String.intercalate "/" (claimSegsUp chain).reverse

/-- Definition following the amended claim: the ordinal is appended iff
at least one preceding sibling shares the tag. -/
def amendedSegment (c : Crumb) : String :=
  if sameTagPrevCount c.nodeName c.prevSiblings > 0 then
    toLowerStr c.nodeName
      ++ ("[" ++ toString (sameTagPrevCount c.nodeName c.prevSiblings + 1) ++ "]")
  else toLowerStr c.nodeName

def amendedSegsUp : List Crumb → List String
  | [] => []
  | c :: rest =>
      if c.parentIsBoundary then [] else amendedSegment c :: amendedSegsUp rest

def amendedXPath (chain : List Crumb) : String :=
  String.intercalate "/" (amendedSegsUp chain).reverse

/-- C5 counterexample: a `div` that is the first of two same-tag
siblings.  The claim demands an ordinal (`div[1]`); the code counts only
preceding siblings and emits a bare `div`. -/
def c5Chain : List Crumb := [⟨"DIV", [], [⟨true, "DIV"⟩], false⟩]

theorem xpath_first_sibling_counterexample :
    getXPathTree c5Chain = "div"
      ∧ claimXPath c5Chain = "div[1]"
      ∧ getXPathTree c5Chain ≠ claimXPath c5Chain := by
  refine ⟨by decide, by decide, by decide⟩

theorem xpathSegment_eq_amended (c : Crumb) :
    xpathSegment c = amendedSegment c := by
  unfold xpathSegment amendedSegment
  by_cases h : sameTagPrevCount c.nodeName c.prevSiblings > 0
  · simp only [if_pos h]
  · simp only [if_neg h]
    exact String.append_empty _

theorem xpathSegsUp_eq_amended :
    ∀ chain : List Crumb, xpathSegsUp chain = amendedSegsUp chain
  | [] => rfl
  | c :: rest => by
      unfold xpathSegsUp amendedSegsUp
      by_cases h : c.parentIsBoundary = true
      · simp [h]
      · simp [h, xpathSegment_eq_amended, xpathSegsUp_eq_amended rest]

/-- C5 (amended): the structural locator is the concatenation, topmost
ancestor first, of per-element segments, each the lowercased tag name
with the 1-based same-tag ordinal appended iff at least one preceding
sibling shares the tag (the first of several same-tag siblings gets no
ordinal); the walk stops at the nearest shadow-root or iframe boundary
(the element whose parent is the boundary contributes no segment). -/
theorem getXPathTree_amended (chain : List Crumb) :
    getXPathTree chain = amendedXPath chain := by
  unfold getXPathTree amendedXPath
  rw [xpathSegsUp_eq_amended]

/-!
`isInteractiveElement(element)`.  An element is modelled by its tag
name, attribute list, and the outcomes of the three live probes the
code makes outside the attribute map: `element.onclick !== null`, the
`getEventListeners` probe (DevTools API or `on*`-property fallback),
and the `element.draggable` property.  `window.getComputedStyle` is
also called by the code but feeds only commented-out or unused checks.
-/

structure RawElem where
  tagName : String
  attrs : List (String × String)
  onclickProp : Bool
  hasClickListeners : Bool
  draggableProp : Bool

def getAttribute (e : RawElem) (name : String) : Option String :=
  (e.attrs.find? (fun a => a.1 == name)).map (fun a => a.2)

def hasAttribute (e : RawElem) (name : String) : Bool :=
  (getAttribute e name).isSome

def interactiveElements : List String :=
  ["a", "button", "details", "embed", "input", "label", "menu", "menuitem",
   "object", "select", "textarea", "summary"]

def interactiveRoles : List String :=
  ["button", "menu", "menuitem", "link", "checkbox", "radio", "slider",
   "tab", "tabpanel", "textbox", "combobox", "grid", "listbox", "option",
   "progressbar", "scrollbar", "searchbox", "switch", "tree", "treeitem",
   "spinbutton", "tooltip", "a-button-inner", "a-dropdown-button", "click",
   "menuitemcheckbox", "menuitemradio", "a-button-text", "button-text",
   "button-icon", "button-icon-only", "button-text-icon-only", "dropdown",
   "combobox"]

/-- `interactiveRoles.has(role)` with a possibly-null attribute. -/
def roleHas (o : Option String) : Bool :=
  match o with
  | some r => interactiveRoles.contains r
  | none => false

def hasAriaPropsB (e : RawElem) : Bool :=
  hasAttribute e "aria-expanded" || hasAttribute e "aria-pressed"
    || hasAttribute e "aria-selected" || hasAttribute e "aria-checked"

def hasClickHandlerB (e : RawElem) : Bool :=
  e.onclickProp || (getAttribute e "onclick").isSome
    || hasAttribute e "ng-click" || hasAttribute e "@click"
    || hasAttribute e "v-on:click"

def isDraggableB (e : RawElem) : Bool :=
  e.draggableProp || (getAttribute e "draggable" == some "true")

def isInteractiveElement (e : RawElem) : Bool :=
  let tabIndex := getAttribute e "tabindex"
  let hasInteractiveRole :=
    interactiveElements.contains (toLowerStr e.tagName)
    || roleHas (getAttribute e "role")
    || roleHas (getAttribute e "aria-role")
    || (tabIndex.isSome && tabIndex != some "-1")
    || (getAttribute e "data-action" == some "a-dropdown-select")
    || (getAttribute e "data-action" == some "a-dropdown-button")
  if hasInteractiveRole then true
  else hasAriaPropsB e || hasClickHandlerB e || e.hasClickListeners
    || isDraggableB e

/-- Decimal digits to a number (claim-side helper, structural so that
concrete inputs evaluate). -/
def digitsVal (ds : List Char) : Option Nat :=
  if ds = [] then none
  else
    ds.foldl
      (fun acc c =>
        acc.bind (fun a =>
          if c.isDigit then some (a * 10 + (c.toNat - 48)) else none))
      (some 0)

/-- Definition following the words of claim C7: the explicit tab index
parsed as an integer. -/
def parseTabIndex (s : String) : Option Int :=
  match s.data with
  | '-' :: ds => (digitsVal ds).map (fun n => -(n : Int))
  | ds => (digitsVal ds).map (fun n => (n : Int))

/-- Definition following the words of claim C7: explicit tab index
present and non-negative. -/
def tabIndexNonneg (e : RawElem) : Bool :=
  match getAttribute e "tabindex" with
  | some s =>
      match parseTabIndex s with
      | some n => decide (0 ≤ n)
      | none => false
  | none => false

/-- C7 counterexample: an element whose only interactivity signal is
`tabindex="-2"`.  The claim says it must not be classified interactive
(negative tab index), but the code only excludes the literal `"-1"` and
classifies it interactive. -/
def c7Elem : RawElem := ⟨"div", [("tabindex", "-2")], false, false, false⟩

theorem tabindex_counterexample :
    isInteractiveElement c7Elem = true ∧ tabIndexNonneg c7Elem = false := by
  refine ⟨by decide, by decide⟩

/-- C7 (amended): for an element whose only interactivity signal is its
explicit tab index (every other signal the classifier reads is absent),
`isInteractiveElement` returns true iff the `tabindex` attribute is
present and is not the literal string `"-1"`. -/
theorem tabindex_classification (e : RawElem)
    (hTag : interactiveElements.contains (toLowerStr e.tagName) = false)
    (hRole : roleHas (getAttribute e "role") = false)
    (hAria : roleHas (getAttribute e "aria-role") = false)
    (hDa1 : (getAttribute e "data-action" == some "a-dropdown-select") = false)
    (hDa2 : (getAttribute e "data-action" == some "a-dropdown-button") = false)
    (hPr : hasAriaPropsB e = false)
    (hCh : hasClickHandlerB e = false)
    (hCl : e.hasClickListeners = false)
    (hDr : isDraggableB e = false) :
    isInteractiveElement e
      = ((getAttribute e "tabindex").isSome
          && getAttribute e "tabindex" != some "-1") := by
  unfold isInteractiveElement
  simp only [hTag, hRole, hAria, hDa1, hDa2, Bool.false_or, Bool.or_false]
  cases htb : ((getAttribute e "tabindex").isSome
      && getAttribute e "tabindex" != some "-1") with
  | true => simp [htb]
  | false => simp [htb, hPr, hCh, hCl, hDr]

def c7Wit : RawElem := ⟨"div", [("tabindex", "0")], false, false, false⟩

theorem tabindex_classification_witness :
    isInteractiveElement c7Wit
      = ((getAttribute c7Wit "tabindex").isSome
          && getAttribute c7Wit "tabindex" != some "-1") :=
  tabindex_classification c7Wit (by decide) (by decide) (by decide)
    (by decide) (by decide) (by decide) (by decide) (by decide) (by decide)

/-!
`remove_highlight()`: looks up the overlay container by its well-known
id and removes that element if present.  The document is modelled as
the list of its elements, each with its id string and an abstract
payload; `getElementById` returns the first element with the id and
`element.remove()` removes that one element.
-/

def highlightContainerId : String := "playwright-highlight-container"

structure SimpleDoc where
  nodes : List (String × Nat)

def getElementById (d : SimpleDoc) (i : String) : Option Nat :=
  (d.nodes.find? (fun a => a.1 == i)).map (fun a => a.2)

def removeElementById (d : SimpleDoc) (i : String) : SimpleDoc :=
  ⟨d.nodes.eraseP (fun a => a.1 == i)⟩

def remove_highlight (d : SimpleDoc) : SimpleDoc :=
  match getElementById d highlightContainerId with
  | some _ => removeElementById d highlightContainerId
  | none => d

/-- How many document elements carry the id (document ids are unique;
the container is created with a create-if-absent guard, so at most one
exists). -/
def idCount (d : SimpleDoc) (i : String) : Nat :=
  (d.nodes.filter (fun a => a.1 == i)).length

theorem eraseP_find_none {α : Type} (p : α → Bool) :
    ∀ l : List α, (l.filter p).length ≤ 1 → (l.eraseP p).find? p = none := by
  intro l
  induction l with
  | nil => simp
  | cons a l ih =>
      intro h
      by_cases hpa : p a = true
      · rw [List.eraseP_cons_of_pos hpa]
        rw [List.filter_cons_of_pos hpa] at h
        simp only [List.length_cons] at h
        have hz : (l.filter p).length = 0 := by omega
        have hnil : l.filter p = [] := List.length_eq_zero.mp hz
        rw [List.find?_eq_none]
        intro x hx hpx
        have hmem : x ∈ l.filter p := List.mem_filter.mpr ⟨hx, hpx⟩
        rw [hnil] at hmem
        cases hmem
      · have hpa' : p a = false := by
          cases hp : p a with
          | true => exact absurd hp hpa
          | false => rfl
        rw [List.eraseP_cons_of_neg (by simp [hpa'])]
        rw [List.filter_cons_of_neg (by simp [hpa'])] at h
        rw [List.find?_cons_of_neg _ (by simp [hpa'])]
        exact ih h

/-- C8: `remove_highlight` is idempotent — after one call has removed
the overlay container, or when none exists, a further call returns the
document unchanged (and, being a total function of the document, raises
no error). -/
theorem remove_highlight_idempotent (d : SimpleDoc)
    (h : idCount d highlightContainerId ≤ 1) :
    remove_highlight (remove_highlight d) = remove_highlight d
      ∧ (getElementById d highlightContainerId = none →
          remove_highlight d = d) := by
  constructor
  · cases hfind : getElementById d highlightContainerId with
    | none =>
        have h1 : remove_highlight d = d := by
          unfold remove_highlight
          rw [hfind]
        rw [h1]
        exact h1
    | some v =>
        have h1 : remove_highlight d
            = removeElementById d highlightContainerId := by
          unfold remove_highlight
          rw [hfind]
        rw [h1]
        have hnone : getElementById
            (removeElementById d highlightContainerId)
            highlightContainerId = none := by
          unfold getElementById removeElementById
          rw [eraseP_find_none _ d.nodes h]
          rfl
        conv_lhs => unfold remove_highlight
        rw [hnone]
  · intro hnone
    unfold remove_highlight
    rw [hnone]

def c8Doc : SimpleDoc := ⟨[("playwright-highlight-container", 1), ("body", 2)]⟩

theorem remove_highlight_idempotent_witness :
    idCount c8Doc highlightContainerId ≤ 1
      ∧ (remove_highlight (remove_highlight c8Doc) = remove_highlight c8Doc
          ∧ (getElementById c8Doc highlightContainerId = none →
              remove_highlight c8Doc = c8Doc)) :=
  ⟨by decide, remove_highlight_idempotent c8Doc (by decide)⟩

/-!
The command dispatcher: `BrowserUse.execute(context, params)`.

State: the `Session` holds `self.current_page` (an abstract page id,
`none` before the first navigation); the `Ctx` holds
`context["selector_map"]`, modelled as an association list from
highlight index to the entry's optional `xpath` (an entry whose mapping
is empty or lacks an xpath maps to `none`).  The driver (Playwright) is
abstracted by an `Env` of oracles giving each page operation's outcome:
`Except.error` models a raised exception, which the dispatcher's
uniform `try/except` converts to `{success: false, error: str(e)}`.
The `attrErrMsg` strings stand in for the Python `AttributeError`
raised when an operation is invoked on `current_page = None`.
-/

inductive Payload where
  | empty
  | nav (title url : String)
  | boolRes (b : Bool)
  | content (title url text : String)
  | dropdown (options : List (Nat × String × String)) (idAttr nameAttr : String)
  | selected (value text : String)
  | availOptions (texts : List String)
  | shot (text : String)
deriving DecidableEq

structure DResult where
  success : Bool
  error : Option String
  payload : Payload
deriving DecidableEq

/-- The dict returned by the `select_dropdown_option` page script. -/
structure JsDict where
  success : Bool
  error : Option String
  payload : Payload
deriving DecidableEq

structure Session where
  currentPage : Option Nat
deriving DecidableEq

structure Ctx where
  selectorMap : List (Nat × Option String)
deriving DecidableEq

/-- The value held in the local `result` variable before the uniform
`if result: ... else ...` conversion: Python `None`, a boolean, or a
dict (with its optional `success` and `error` keys). -/
inductive ResVal where
  | noneV
  | boolV (b : Bool)
  | dictV (successKey : Option Bool) (errorKey : Option String) (payload : Payload)

structure Env where
  nav : Except String (Nat × String × String)
  query : String → Option Unit
  fill : Except String Unit
  click : Except String Unit
  scroll : String → Except String Bool
  extractPage : Except String (String × String × String)
  dropdown : String → Except String (Option (List (Nat × String × String) × String × String))
  sel : String → String → Except String JsDict
  inject : Except String Unit
  snapshot : Except String (List (Nat × Option String) × String)
  shot : Except String Unit
  removeHl : Except String Unit

structure Params where
  action? : Option String
  index? : Option Nat
  text? : Option String

def noPageMsg : String := "No page open; call open_url first."
def elementNotExistMsg : String := "Element does not exist"
def invalidParamsMsg : String :=
  "Invalid parameters. Expected an object with an \"action\" property."
def indexRequiredMsg : String := "index parameter is required"
def textRequiredMsg : String := "text parameter is required"
def urlRequiredMsg : String := "text (url) parameter is required"
def invalidActionMsg (a : String) : String :=
  "Invalid action: \"" ++ a ++ "\" is not recognized."
def attrErrMsg (meth : String) : String :=
  "AttributeError: NoneType object has no attribute " ++ meth

/-- `context["selector_map"].get(str(index)) or .get(index)`, yielding
the entry's `.get("xpath")`. -/
def lookupSelector (m : List (Nat × Option String)) (i : Nat) :
    Option (Option String) :=
  (m.find? (fun a => a.1 == i)).map (fun a => a.2)

/-- The `selector_xpath` resolution block: runs only when an index is
given and the selector map is truthy (nonempty); raises
"Element does not exist" when the mapping is missing or its xpath is
falsy. -/
def resolveSelector (m : List (Nat × Option String)) :
    Option Nat → Except String (Option String)
  | none => .ok none
  | some i =>
      match m with
      | [] => .ok none
      | _ :: _ =>
          match (lookupSelector m i).join with
          | some s =>
              if s == "" then .error elementNotExistMsg else .ok (some s)
          | none => .error elementNotExistMsg

/-- `get_element(page, xpath)`: `None` for a falsy xpath (before the
page is ever touched), otherwise `page.query_selector(...)`. -/
def getElement (page : Option Nat) (env : Env) (xp : Option String) :
    Except String (Option Unit) :=
  match xp with
  | none => .ok none
  | some s =>
      if s == "" then .ok none
      else
        match page with
        | none => .error (attrErrMsg "query_selector")
        | some _ => .ok (env.query s)

/-- The Python f-string `f"xpath={selector_xpath}"` renders `None` as
the literal string "None". -/
def xpathArg : Option String → String
  | some s => s
  | none => "None"

/-- The dispatcher's uniform result conversion: a falsy `result`
(Python `None` or `False`) yields the bare `{"success": False}`; a
truthy dict is spread after `"success": True`, so a `success` key of
the dict wins. -/
def wrapResult : ResVal → DResult
  | .noneV => ⟨false, none, .empty⟩
  | .boolV false => ⟨false, none, .empty⟩
  | .boolV true => ⟨true, none, .boolRes true⟩
  | .dictV s? e? pl => ⟨s?.getD true, e?, pl⟩

/-- The body of `execute` inside its `try`: `.error` is a raised
exception together with the session/context state at the raise (state
mutated before a raise persists). -/
def execBody (sess : Session) (ctx : Ctx) (env : Env) (p : Params) :
    Except (String × Session × Ctx) (ResVal × Session × Ctx) :=
  match p.action? with
  | none => .error (invalidParamsMsg, sess, ctx)
  | some action =>
      match resolveSelector ctx.selectorMap p.index? with
      | .error m => .error (m, sess, ctx)
      | .ok selectorXpath =>
          if action == "open_url" then
            match p.text? with
            | none => .error (urlRequiredMsg, sess, ctx)
            | some _ =>
                match env.nav with
                | .error m => .error (m, sess, ctx)
                | .ok (pid, title, url) =>
                    .ok (.dictV (some true) none (.nav title url),
                        ⟨some pid⟩, ctx)
          else if action == "input_text" then
            match p.index? with
            | none => .error (indexRequiredMsg, sess, ctx)
            | some _ =>
                match p.text? with
                | none => .error (textRequiredMsg, sess, ctx)
                | some _ =>
                    match getElement sess.currentPage env selectorXpath with
                    | .error m => .error (m, sess, ctx)
                    | .ok (some _) =>
                        match env.fill with
                        | .error m => .error (m, sess, ctx)
                        | .ok _ => .ok (.boolV true, sess, ctx)
                    | .ok none => .ok (.boolV false, sess, ctx)
          else if action == "click" || action == "right_click"
              || action == "double_click" then
            match p.index? with
            | none => .error (indexRequiredMsg, sess, ctx)
            | some _ =>
                match getElement sess.currentPage env selectorXpath with
                | .error m => .error (m, sess, ctx)
                | .ok (some _) =>
                    match env.click with
                    | .error m => .error (m, sess, ctx)
                    | .ok _ => .ok (.boolV true, sess, ctx)
                | .ok none => .ok (.boolV false, sess, ctx)
          else if action == "scroll_to" then
            match p.index? with
            | none => .error (indexRequiredMsg, sess, ctx)
            | some _ =>
                match sess.currentPage with
                | none => .error (attrErrMsg "eval_on_selector", sess, ctx)
                | some _ =>
                    match env.scroll (xpathArg selectorXpath) with
                    | .error m => .error (m, sess, ctx)
                    | .ok b => .ok (.boolV b, sess, ctx)
          else if action == "extract_content" then
            match sess.currentPage with
            | none => .error (attrErrMsg "evaluate", sess, ctx)
            | some _ =>
                match env.extractPage with
                | .error m => .error (m, sess, ctx)
                | .ok (t, u, c) =>
                    .ok (.dictV none none (.content t u c), sess, ctx)
          else if action == "get_dropdown_options" then
            match p.index? with
            | none => .error (indexRequiredMsg, sess, ctx)
            | some _ =>
                match sess.currentPage with
                | none => .error (attrErrMsg "evaluate", sess, ctx)
                | some _ =>
                    match env.dropdown (xpathArg selectorXpath) with
                    | .error m => .error (m, sess, ctx)
                    | .ok none => .ok (.noneV, sess, ctx)
                    | .ok (some (opts, idA, nameA)) =>
                        .ok (.dictV none none (.dropdown opts idA nameA),
                            sess, ctx)
          else if action == "select_dropdown_option" then
            match p.index? with
            | none => .error (indexRequiredMsg, sess, ctx)
            | some _ =>
                match p.text? with
                | none => .error (textRequiredMsg, sess, ctx)
                | some txt =>
                    match sess.currentPage with
                    | none => .error (attrErrMsg "evaluate", sess, ctx)
                    | some _ =>
                        match env.sel (xpathArg selectorXpath) txt with
                        | .error m => .error (m, sess, ctx)
                        | .ok jd =>
                            .ok (.dictV (some jd.success) jd.error jd.payload,
                                sess, ctx)
          else if action == "screenshot_extract_element" then
            match sess.currentPage with
            | none => .error (noPageMsg, sess, ctx)
            | some _ =>
                match env.inject with
                | .error m => .error (m, sess, ctx)
                | .ok _ =>
                    match env.snapshot with
                    | .error m => .error (m, sess, ctx)
                    | .ok (m2, str) =>
                        match env.shot with
                        | .error msg => .error (msg, sess, ⟨m2⟩)
                        | .ok _ =>
                            match env.removeHl with
                            | .error msg => .error (msg, sess, ⟨m2⟩)
                            | .ok _ =>
                                .ok (.dictV none none (.shot str), sess, ⟨m2⟩)
          else
            .error (invalidActionMsg action, sess, ctx)

/-- `execute`: the `try/except` boundary converting any raise into
`{"success": False, "error": str(e)}`. -/
def execute (sess : Session) (ctx : Ctx) (env : Env) (p : Params) :
    DResult × Session × Ctx :=
  match execBody sess ctx env p with
  | .ok (rv, s, c) => (wrapResult rv, s, c)
  | .error (m, s, c) => (⟨false, some m, .empty⟩, s, c)

/-- A baseline driver environment for concrete runs: no navigation, no
element found, no dropdown found. -/
def env0 : Env :=
  ⟨.error "nav failed", fun _ => none, .ok (), .ok (),
   fun _ => .error "scroll failed", .error "extract failed",
   fun _ => .ok none, fun _ _ => .error "select failed",
   .ok (), .error "snapshot failed", .ok (), .ok ()⟩

/-! C2: index absent from the Selector Index. -/

def c2Sess : Session := ⟨some 1⟩
def c2Ctx : Ctx := ⟨[]⟩
def c2Params : Params := ⟨some "click", some 0, none⟩

/-- C2 counterexample: with the Selector Index empty (its state before
any snapshot), index 0 is absent from it, yet a `click` on index 0
returns the bare `{success: false}` — without the
"Element does not exist" error the claim demands. -/
theorem element_not_exist_counterexample :
    c2Ctx.selectorMap = []
      ∧ execute c2Sess c2Ctx env0 c2Params
          = (⟨false, none, .empty⟩, c2Sess, c2Ctx)
      ∧ (execute c2Sess c2Ctx env0 c2Params).1.error
          ≠ some elementNotExistMsg := by
  refine ⟨rfl, by decide, by decide⟩

/-- C2 (amended): when the Selector Index is nonempty and the given
index has no entry in it, any command carrying that index returns
`{success: false, error: "Element does not exist"}` (and the dispatcher
returns normally — no exception escapes); with an empty map the lookup
is skipped instead. -/
theorem element_not_exist_on_absent_index (sess : Session) (ctx : Ctx)
    (env : Env) (p : Params) (a : String) (i : Nat)
    (ha : p.action? = some a) (hi : p.index? = some i)
    (hne : ctx.selectorMap ≠ [])
    (habs : lookupSelector ctx.selectorMap i = none) :
    execute sess ctx env p
      = (⟨false, some elementNotExistMsg, .empty⟩, sess, ctx) := by
  have hres : resolveSelector ctx.selectorMap (some i)
      = .error elementNotExistMsg := by
    cases hm : ctx.selectorMap with
    | nil => exact absurd hm hne
    | cons e rest =>
        rw [hm] at habs
        simp [resolveSelector, habs]
  simp [execute, execBody, ha, hi, hres]

def c2wCtx : Ctx := ⟨[(0, some "html/body/a")]⟩
def c2wParams : Params := ⟨some "click", some 5, none⟩

theorem element_not_exist_on_absent_index_witness :
    execute c2Sess c2wCtx env0 c2wParams
      = (⟨false, some elementNotExistMsg, .empty⟩, c2Sess, c2wCtx) :=
  element_not_exist_on_absent_index c2Sess c2wCtx env0 c2wParams "click" 5
    rfl rfl (by decide) (by decide)

/-! C4: `open_url` and the Selector Index. -/

/-- A driver environment in which navigation succeeds (new page id 2,
title "T", url "U"). -/
def envNav : Env :=
  ⟨.ok (2, "T", "U"), fun _ => none, .ok (), .ok (),
   fun _ => .error "scroll failed", .error "extract failed",
   fun _ => .ok none, fun _ _ => .error "select failed",
   .ok (), .error "snapshot failed", .ok (), .ok ()⟩

def c4Ctx : Ctx := ⟨[(0, some "html/body")]⟩
def c4Params : Params := ⟨some "open_url", none, some "https://example.test"⟩

/-- C4 counterexample: a successful `open_url` replaces the page but
leaves the nonempty Selector Index untouched, so index 0 from the
pre-navigation snapshot still resolves afterwards — contradicting the
claim that the map is cleared. -/
theorem open_url_keeps_map_counterexample :
    (execute ⟨none⟩ c4Ctx envNav c4Params).1.success = true
      ∧ (execute ⟨none⟩ c4Ctx envNav c4Params).2.1 = ⟨some 2⟩
      ∧ (execute ⟨none⟩ c4Ctx envNav c4Params).2.2 = c4Ctx
      ∧ c4Ctx.selectorMap ≠ []
      ∧ lookupSelector
          (execute ⟨none⟩ c4Ctx envNav c4Params).2.2.selectorMap 0
            = some (some "html/body") := by
  refine ⟨by decide, by decide, by decide, by decide, by decide⟩

/-- C4 (amended): every successful `open_url` replaces the Session's
current page reference with the newly navigated page, but it leaves the
Session's Selector Index map unchanged — indices from a snapshot taken
before the navigation still resolve to their old locators until the
next snapshot-producing command replaces the map. -/
theorem open_url_replaces_page_keeps_map (sess : Session) (ctx : Ctx)
    (env : Env) (p : Params) (url : String) (pid : Nat) (t u : String)
    (ha : p.action? = some "open_url") (hi : p.index? = none)
    (ht : p.text? = some url) (hn : env.nav = .ok (pid, t, u)) :
    execute sess ctx env p
      = (⟨true, none, .nav t u⟩, ⟨some pid⟩, ctx) := by
  simp [execute, execBody, ha, hi, ht, hn, resolveSelector, wrapResult]

theorem open_url_replaces_page_keeps_map_witness :
    execute ⟨none⟩ c4Ctx envNav c4Params
      = (⟨true, none, .nav "T" "U"⟩, ⟨some 2⟩, c4Ctx) :=
  open_url_replaces_page_keeps_map ⟨none⟩ c4Ctx envNav c4Params
    "https://example.test" 2 "T" "U" rfl rfl rfl rfl

/-! C6: the no-page state. -/

def c6Params : Params := ⟨some "click", some 0, none⟩

/-- C6 counterexample: in the no-page state a `click` (empty Selector
Index, index 0) fails — but with the bare `{success: false}`, whose
error field is absent rather than an error indicating that no page is
open. -/
theorem no_page_click_counterexample :
    (execute ⟨none⟩ ⟨[]⟩ env0 c6Params).1 = ⟨false, none, .empty⟩
      ∧ (execute ⟨none⟩ ⟨[]⟩ env0 c6Params).1.error ≠ some noPageMsg := by
  refine ⟨by decide, by decide⟩

/-- C6 (amended): in the no-page state every command other than
`open_url` fails (`success = false`) and leaves the Session in the
no-page state — `open_url` is the only command that can set the current
page — but the failure outcome carries the explicit
"No page open; call open_url first." message only for
`screenshot_extract_element`; the other commands yield a bare
`{success: false}` or an incidental exception message. -/
theorem getElement_none_ne_some (env : Env) (xp : Option String) (v : Unit) :
    getElement none env xp ≠ Except.ok (some v) := by
  cases xp with
  | none => simp [getElement]
  | some s => by_cases h : (s == "") = true <;> simp [getElement, h]

/-- Helper for C6: the property of an `execBody` outcome in the no-page
state — the session still has no page, and a normal return is falsy. -/
def noPageOutcome :
    Except (String × Session × Ctx) (ResVal × Session × Ctx) → Prop
  | .error (_, s, _) => s.currentPage = none
  | .ok (rv, s, _) =>
      s.currentPage = none ∧ (wrapResult rv).success = false

theorem no_page_commands_fail (sess : Session) (ctx : Ctx) (env : Env)
    (p : Params) (a : String)
    (hp : sess.currentPage = none) (ha : p.action? = some a)
    (hno : a ≠ "open_url") :
    (execute sess ctx env p).1.success = false
      ∧ (execute sess ctx env p).2.1.currentPage = none := by
  rcases sess with ⟨cp⟩
  simp only at hp
  subst hp
  have hbody : noPageOutcome (execBody ⟨none⟩ ctx env p) := by
    simp only [execBody, ha]
    (repeat' split) <;> simp_all [noPageOutcome, wrapResult, getElement_none_ne_some]
  cases hb : execBody ⟨none⟩ ctx env p with
  | error e =>
      rw [hb] at hbody
      obtain ⟨m, s, c⟩ := e
      simp only [noPageOutcome] at hbody
      simp [execute, hb, hbody]
  | ok o =>
      rw [hb] at hbody
      obtain ⟨rv, s, c⟩ := o
      simp only [noPageOutcome] at hbody
      simp [execute, hb, hbody.1, hbody.2]

theorem no_page_commands_fail_witness :
    (execute ⟨none⟩ ⟨[]⟩ env0 ⟨some "extract_content", none, none⟩).1.success
        = false
      ∧ (execute ⟨none⟩ ⟨[]⟩ env0
          ⟨some "extract_content", none, none⟩).2.1.currentPage = none :=
  no_page_commands_fail ⟨none⟩ ⟨[]⟩ env0
    ⟨some "extract_content", none, none⟩ "extract_content"
    rfl rfl (by decide)

/-! C9: unrecognized actions. -/

def c9Params : Params := ⟨some "frobnicate", none, none⟩

/-- C9 counterexample: an unrecognized action yields the error string
`Invalid action: "frobnicate" is not recognized.` — not exactly the
`"Invalid action"` the claim demands. -/
theorem invalid_action_counterexample :
    (execute ⟨some 1⟩ ⟨[]⟩ env0 c9Params).1
        = ⟨false, some (invalidActionMsg "frobnicate"), .empty⟩
      ∧ invalidActionMsg "frobnicate" ≠ "Invalid action" := by
  refine ⟨by decide, by decide⟩

def knownActions : List String :=
  ["screenshot_extract_element", "open_url", "input_text", "click",
   "right_click", "double_click", "scroll_to", "extract_content",
   "get_dropdown_options", "select_dropdown_option"]

/-- C9 (amended): for every request whose action is not one of the
enumerated command names (and which does not fail index resolution
first — here: no index given), the dispatcher returns
`{success: false, error: 'Invalid action: "<action>" is not
recognized.'}`, leaving session and context unchanged. -/
theorem invalid_action_result (sess : Session) (ctx : Ctx) (env : Env)
    (p : Params) (a : String)
    (ha : p.action? = some a) (hi : p.index? = none)
    (hmem : a ∉ knownActions) :
    execute sess ctx env p
      = (⟨false, some (invalidActionMsg a), .empty⟩, sess, ctx) := by
  simp only [knownActions, List.mem_cons, List.not_mem_nil, or_false,
    not_or] at hmem
  obtain ⟨h1, h2, h3, h4, h5, h6, h7, h8, h9, h10⟩ := hmem
  simp [execute, execBody, ha, hi, resolveSelector,
    h1, h2, h3, h4, h5, h6, h7, h8, h9, h10]

theorem invalid_action_result_witness :
    execute ⟨some 1⟩ ⟨[]⟩ env0 c9Params
      = (⟨false, some (invalidActionMsg "frobnicate"), .empty⟩,
         ⟨some 1⟩, ⟨[]⟩) :=
  invalid_action_result ⟨some 1⟩ ⟨[]⟩ env0 c9Params "frobnicate"
    rfl rfl (by decide)

/-! C10: falsy effect results become the bare failure. -/

/-- C10: when a command's effect completes without raising but produces
a falsy result — the element handle for the resolved locator is null so
`click`/`input_text` sets `result = False`, or `get_dropdown_options`
finds no select and returns null — the dispatcher returns exactly the
bare `{"success": false}`: no error field, no payload, identical across
the three failure modes, so the caller cannot tell them apart from the
response alone. -/
theorem falsy_result_bare_failure (sess : Session) (ctx : Ctx) (env : Env)
    (i : Nat) (xp : String) (pid : Nat)
    (hp : sess.currentPage = some pid)
    (hfind : lookupSelector ctx.selectorMap i = some (some xp))
    (hxp : (xp == "") = false)
    (hq : env.query xp = none)
    (hd : env.dropdown xp = .ok none) :
    execute sess ctx env ⟨some "click", some i, none⟩
        = (⟨false, none, .empty⟩, sess, ctx)
      ∧ execute sess ctx env ⟨some "input_text", some i, some "t"⟩
          = (⟨false, none, .empty⟩, sess, ctx)
      ∧ execute sess ctx env ⟨some "get_dropdown_options", some i, none⟩
          = (⟨false, none, .empty⟩, sess, ctx) := by
  have hres : resolveSelector ctx.selectorMap (some i) = .ok (some xp) := by
    cases hm : ctx.selectorMap with
    | nil => rw [hm] at hfind; simp [lookupSelector] at hfind
    | cons e rest =>
        rw [hm] at hfind
        simp [resolveSelector, hfind, hxp]
  refine ⟨?_, ?_, ?_⟩
  · simp [execute, execBody, hres, hp, getElement, hxp, hq, wrapResult]
  · simp [execute, execBody, hres, hp, getElement, hxp, hq, wrapResult]
  · simp [execute, execBody, hres, hp, xpathArg, hd, wrapResult]

def c10Sess : Session := ⟨some 1⟩
def c10Ctx : Ctx := ⟨[(3, some "html/body/button")]⟩

theorem falsy_result_bare_failure_witness :
    execute c10Sess c10Ctx env0 ⟨some "click", some 3, none⟩
        = (⟨false, none, .empty⟩, c10Sess, c10Ctx)
      ∧ execute c10Sess c10Ctx env0 ⟨some "input_text", some 3, some "t"⟩
          = (⟨false, none, .empty⟩, c10Sess, c10Ctx)
      ∧ execute c10Sess c10Ctx env0
          ⟨some "get_dropdown_options", some 3, none⟩
          = (⟨false, none, .empty⟩, c10Sess, c10Ctx) :=
  falsy_result_bare_failure c10Sess c10Ctx env0 3 "html/body/button" 1
    rfl (by decide) (by decide) rfl rfl

end BrowserUseModel
